import Mathlib

/-!
# Verification of the crabtap tap-tempo tool

Shallow embedding of the core logic of the repository:

* `Bpms` — the fixed-capacity (10 slot) ring buffer of BPM samples
  (`src/main.rs`, `struct Bpms` with `new`/`push`/`avg`).
* `Mp3` / `Flac` — the two tag-format variants behind the `Music` trait
  (`src/file.rs`), with the on-disk tag containers of the external `id3`
  and `metaflac` crates modelled as explicit state that is threaded
  through `new` and `set_bpm`.
* `Session` and the per-mode step functions — the event-loop state machine
  of `main` (`src/main.rs`), with playback starts and tag writes recorded
  as logs instead of real I/O.
* `resolveMain` / `resolveFilter` — the extension dispatch that turns an
  input path into a track, in `src/main.rs` and `src/filter.rs`.

Rust `f64` values are modelled as exact rationals (`ℚ`); `u32` arithmetic
is `Nat` arithmetic reduced `% 2 ^ 32` where the code can overflow.
-/

namespace Crabtap

/-- Models Rust's `expr as u32` cast applied to an `f64`: truncation toward
zero, saturating at `0` below and at `u32::MAX` above (`Int.toNat` sends
negative floors to `0`, and for nonnegative rationals the floor is the
truncation toward zero). -/
def f64ToU32 (q : ℚ) : ℕ := min (Int.toNat ⌊q⌋) (2 ^ 32 - 1)

/-- The BPM ring buffer of `src/main.rs` (`struct Bpms`): a 10-element
array of samples, a write cursor `next`, and the count `size` of populated
slots.  The Rust `[f64; 10]` array is modelled as a `List ℚ` of length 10. -/
structure Bpms where
  bpms : List ℚ
  next : ℕ
  size : ℕ
deriving DecidableEq

/-- Rust `Bpms::new` (src/main.rs): all-zero buffer, cursor 0, no samples. -/
def Bpms.new : Bpms := ⟨List.replicate 10 0, 0, 0⟩

/-- Rust `Bpms::push` (src/main.rs): overwrite the slot at the cursor, advance
the cursor modulo 10, and bump `size` while it is below 10. -/
def Bpms.push (b : Bpms) (bpm : ℚ) : Bpms :=
  { bpms := b.bpms.set b.next bpm
    next := (b.next + 1) % 10
    size := if b.size < 10 then b.size + 1 else b.size }

/-- Rust `Bpms::avg` (src/main.rs): `None` when no slot is populated, otherwise
the sum of the first `size` slots divided by `size`, cast `as u32`. -/
def Bpms.avg (b : Bpms) : Option ℕ :=
  if b.size = 0 then none
  else some (f64ToU32 ((b.bpms.take b.size).sum / (b.size : ℚ)))

/-- The buffer state reached from `Bpms::new` by a sequence of pushes. -/
def pushList (l : List ℚ) : Bpms := l.foldl Bpms.push Bpms.new

example : (pushList []).avg = none := by rfl
example : (pushList [90]).avg = some 90 := by
  norm_num [pushList, Bpms.new, Bpms.push, Bpms.avg, f64ToU32, List.replicate, Int.toNat]
example : (pushList [3, 5]).avg = some 4 := by
  norm_num [pushList, Bpms.new, Bpms.push, Bpms.avg, f64ToU32, List.replicate, Int.toNat]
example : (pushList [1, 2, 4]).avg = some 2 := by
  norm_num [pushList, Bpms.new, Bpms.push, Bpms.avg, f64ToU32, List.replicate, Int.toNat]
example :
    (pushList [100, 1, 1, 1, 1, 1, 1, 1, 1, 1, 1]).avg = some 1 := by
  norm_num [pushList, Bpms.new, Bpms.push, Bpms.avg, f64ToU32, List.replicate, Int.toNat]

/-- Sum of a list written as a `Finset.range` sum over `getD`. -/
lemma sum_eq_sum_range_getD (t : List ℚ) :
    t.sum = ∑ i ∈ Finset.range t.length, t.getD i 0 := by
  induction t with
  | nil => simp
  | cons x t ih =>
    rw [List.sum_cons, ih, List.length_cons, Finset.sum_range_succ']
    simp only [List.getD_cons_succ, List.getD_cons_zero]
    ring

/-- Reading `getD` through `List.drop`. -/
lemma getD_drop (t : List ℚ) (m i : ℕ) :
    (t.drop m).getD i 0 = t.getD (m + i) 0 := by
  rw [List.getD_eq_getElem?_getD, List.getElem?_drop, List.getD_eq_getElem?_getD]

/-- Index in the push sequence of the sample stored in buffer slot `i`
after `n` pushes (meaningful for `i < min n 10`): the largest `k < n`
with `k % 10 = i`. -/
def slotIdx (n i : ℕ) : ℕ := n - 1 - ((n - 1 - i) % 10)

/-- Characterization of the buffer state after any sequence of pushes:
the cursor is the push count mod 10, the populated count is the push
count capped at 10, and populated slot `i` holds the most recent sample
whose push index is congruent to `i` mod 10. -/
lemma pushList_spec (l : List ℚ) :
    (pushList l).bpms.length = 10 ∧
    (pushList l).next = l.length % 10 ∧
    (pushList l).size = min l.length 10 ∧
    ∀ i, i < min l.length 10 →
      (pushList l).bpms.getD i 0 = l.getD (slotIdx l.length i) 0 := by
  induction l using List.reverseRecOn with
  | nil =>
    refine ⟨rfl, rfl, rfl, ?_⟩
    intro i hi
    simp at hi
  | append_singleton l x ih =>
    obtain ⟨hlen, hnext, hsize, hslot⟩ := ih
    have hstep : pushList (l ++ [x]) = (pushList l).push x := by
      simp [pushList, List.foldl_append]
    set n := l.length with hn
    have hlenapp : (l ++ [x]).length = n + 1 := by simp
    refine ⟨?_, ?_, ?_, ?_⟩
    · rw [hstep]
      simpa [Bpms.push] using hlen
    · rw [hstep, hlenapp]
      simp only [Bpms.push, hnext]
      omega
    · rw [hstep, hlenapp]
      simp only [Bpms.push, hsize]
      split <;> omega
    · intro i hi
      rw [hlenapp] at hi
      rw [hstep, hlenapp]
      simp only [Bpms.push, hnext]
      rw [List.getD_eq_getElem?_getD, List.getElem?_set, hlen]
      by_cases hcase : n % 10 = i
      · have hmod : n % 10 < 10 := by omega
        have hidx : slotIdx (n + 1) i = n := by
          simp only [slotIdx]
          omega
        have hconcat : (l ++ [x])[n]? = some x := by
          rw [hn]
          exact List.getElem?_concat_length l x
        rw [hidx, List.getD_eq_getElem?_getD, hconcat]
        simp [hcase, hmod, show i < 10 by omega]
      · have hi' : i < min n 10 := by omega
        have hidx : slotIdx (n + 1) i = slotIdx n i := by
          simp only [slotIdx]
          omega
        have hlt : slotIdx n i < n := by
          simp only [slotIdx]
          omega
        rw [hidx, List.getD_eq_getElem?_getD, List.getElem?_append,
          if_pos (by omega : slotIdx n i < l.length)]
        simp only [if_neg hcase]
        rw [← List.getD_eq_getElem?_getD, ← List.getD_eq_getElem?_getD]
        exact hslot i hi'

/-- The sum of the populated prefix of the buffer equals the sum of the
window of the 10 most recent samples. -/
lemma pushList_take_sum (l : List ℚ) :
    ((pushList l).bpms.take (pushList l).size).sum =
      (l.drop (l.length - 10)).sum := by
  obtain ⟨hlen, -, hsize, hslot⟩ := pushList_spec l
  set n := l.length with hn
  set m := min n 10 with hm
  have hm10 : m ≤ 10 := by omega
  have htakelen : ((pushList l).bpms.take (pushList l).size).length = m := by
    rw [hsize, List.length_take, hlen]
    omega
  rw [sum_eq_sum_range_getD, htakelen]
  have hgetD : ∀ i ∈ Finset.range m,
      ((pushList l).bpms.take (pushList l).size).getD i 0 =
        l.getD (slotIdx n i) 0 := by
    intro i hi
    rw [Finset.mem_range] at hi
    rw [List.getD_eq_getElem?_getD, List.getElem?_take, hsize,
      if_pos (by omega : i < m), ← List.getD_eq_getElem?_getD]
    exact hslot i (by omega)
  rw [Finset.sum_congr rfl hgetD]
  by_cases hsmall : n ≤ 10
  · have hmn : m = n := by omega
    have hdrop : n - 10 = 0 := by omega
    rw [hdrop, List.drop_zero, sum_eq_sum_range_getD, ← hn, hmn]
    refine Finset.sum_congr rfl ?_
    intro i hi
    rw [Finset.mem_range] at hi
    have : slotIdx n i = i := by
      simp only [slotIdx]
      omega
    rw [this]
  · have hm' : m = 10 := by omega
    have hbig : 10 < n := by omega
    rw [hm']
    have hIco : ∑ i ∈ Finset.range 10, l.getD (slotIdx n i) 0 =
        ∑ k ∈ Finset.Ico (n - 10) n, l.getD k 0 := by
      refine Finset.sum_nbij' (fun i => slotIdx n i) (fun k => k % 10)
        ?_ ?_ ?_ ?_ ?_
      · intro a ha
        rw [Finset.mem_range] at ha
        show slotIdx n a ∈ Finset.Ico (n - 10) n
        rw [Finset.mem_Ico]
        simp only [slotIdx]
        omega
      · intro k hk
        rw [Finset.mem_Ico] at hk
        show k % 10 ∈ Finset.range 10
        rw [Finset.mem_range]
        omega
      · intro a ha
        rw [Finset.mem_range] at ha
        show slotIdx n a % 10 = a
        simp only [slotIdx]
        omega
      · intro k hk
        rw [Finset.mem_Ico] at hk
        show slotIdx n (k % 10) = k
        simp only [slotIdx]
        omega
      · intro a _
        rfl
    rw [hIco, Finset.sum_Ico_eq_sum_range]
    have hsub : n - (n - 10) = 10 := by omega
    rw [hsub, sum_eq_sum_range_getD, List.length_drop, ← hn, hsub]
    refine Finset.sum_congr rfl ?_
    intro i _
    rw [getD_drop]

/-- C1: for every sequence of `push` calls to the estimator, `avg` is
`none` after zero pushes; after `n ≤ 10` pushes it is the arithmetic mean
of all pushed values cast `as u32` (truncation toward zero); after more
than 10 pushes it is the mean of only the 10 most recently pushed values,
likewise truncated. -/
theorem bpms_avg_window_correct (l : List ℚ) :
    (l = [] → (pushList l).avg = none) ∧
    (l ≠ [] → l.length ≤ 10 →
      (pushList l).avg = some (f64ToU32 (l.sum / (l.length : ℚ)))) ∧
    (10 < l.length →
      (pushList l).avg =
        some (f64ToU32 ((l.drop (l.length - 10)).sum / 10))) := by
  obtain ⟨hlen, hnext, hsize, hslot⟩ := pushList_spec l
  have hsum := pushList_take_sum l
  refine ⟨?_, ?_, ?_⟩
  · rintro rfl
    rfl
  · intro hne hle
    have hpos : 0 < l.length := List.length_pos.mpr hne
    have hne0 : (pushList l).size ≠ 0 := by
      rw [hsize]
      omega
    have h1 : l.length - 10 = 0 := by omega
    have h2 : min l.length 10 = l.length := by omega
    simp only [Bpms.avg, if_neg hne0, hsum, h1, List.drop_zero]
    rw [hsize, h2]
  · intro hbig
    have hne0 : (pushList l).size ≠ 0 := by
      rw [hsize]
      omega
    have h2 : min l.length 10 = 10 := by omega
    simp only [Bpms.avg, if_neg hne0, hsum]
    rw [hsize, h2]
    norm_num

/-- Witness for C1 at concrete inputs: no pushes, two pushes, and eleven
pushes (where the first sample has fallen out of the window). -/
theorem bpms_avg_window_correct_witness :
    (pushList []).avg = none ∧ (pushList [3, 5]).avg = some 4 ∧
    (pushList [100, 1, 1, 1, 1, 1, 1, 1, 1, 1, 1]).avg = some 1 := by
  refine ⟨(bpms_avg_window_correct []).1 rfl, ?_, ?_⟩
  · have h := (bpms_avg_window_correct [3, 5]).2.1 (by simp) (by norm_num)
    rw [h]
    norm_num [f64ToU32, Int.toNat]
  · have h := (bpms_avg_window_correct
      [100, 1, 1, 1, 1, 1, 1, 1, 1, 1, 1]).2.2 (by norm_num)
    rw [h]
    norm_num [f64ToU32, Int.toNat]

/-! ## The session state machine of `main` (src/main.rs)

The event loop of `main` is embedded as step functions, one per arm of
the outer `match state`.  Real-world effects are recorded as logs:
`audio_stream.play(&inputs[i].path())` prepends `i` to `plays`, and
`inputs[i].set_bpm(b)` prepends `(i, b)` to `writes` (in `main`, a
`set_bpm` error aborts the whole loop, so the step functions model the
successful write).  `inputs` holds the playlist length, `selected` the
`table_state` index, `lastPressAt` the tap timestamp in milliseconds. -/

/-- The `State` enum of src/main.rs: `Playing`, `Finished { bpm }`,
`Manual { manual_bpm }`. -/
inductive UState where
  | playing : UState
  | finished (bpm : ℕ) : UState
  | manual (manualBpm : ℕ) : UState
deriving DecidableEq

/-- The `PlayCommands` enum of src/main.rs. -/
inductive PlayCommands where
  | quit | confirm | restart | tap | up | down | manual
deriving DecidableEq

/-- The `ConfirmCommands` enum of src/main.rs. -/
inductive ConfirmCommands where
  | yes | no
deriving DecidableEq

/-- The key codes the `State::Manual` arm of the loop distinguishes
(after the modifier check). -/
inductive ManualKey where
  | esc | enter | backspace
  | char (c : Char)
  | other
deriving DecidableEq

/-- The mutable state of `main`'s event loop. -/
structure Session where
  state : UState
  selected : ℕ
  inputs : ℕ
  lastPressAt : Option ℤ
  bpms : Bpms
  plays : List ℕ
  writes : List (ℕ × ℕ)
deriving DecidableEq

/-- Models Rust's `char::to_digit(10)`: the numeric value of an ASCII
decimal digit, `none` otherwise. -/
def rustToDigit (c : Char) : Option ℕ :=
  if c.isDigit then some (c.toNat - 48) else none

/-- The digit-accumulation expression of the `State::Manual` arm
(src/main.rs lines 431-441): a non-digit leaves the value unchanged, a
digit appends unless the guard `manual_bpm > u32::MAX / 10` fires; the
`u32` multiply-add is reduced `% 2 ^ 32`. -/
def manualDigitStep (manualBpm : ℕ) (c : Char) : ℕ :=
  match rustToDigit c with
  | some digit =>
      if manualBpm > (2 ^ 32 - 1) / 10 then manualBpm
      else (manualBpm * 10 + digit) % 2 ^ 32
  | none => manualBpm

/-- The `State::Playing` arm of the event loop (src/main.rs lines
278-348).  `confirmFlag` is `args.confirm`; `now` is the tap timestamp;
`none` models `break` (quit). -/
def stepPlaying (confirmFlag : Bool) (now : ℤ) (s : Session) :
    PlayCommands → Option Session
  | .quit => none
  | .confirm =>
      match s.bpms.avg with
      | some bpm =>
          if confirmFlag then some { s with state := .finished bpm }
          else
            let inputIdx := (s.selected + 1) % s.inputs
            some { s with
              writes := (s.selected, bpm) :: s.writes
              selected := inputIdx
              plays := inputIdx :: s.plays
              lastPressAt := none
              bpms := Bpms.new }
      | none => some s
  | .restart =>
      some { s with
        plays := s.selected :: s.plays
        lastPressAt := none
        bpms := Bpms.new }
  | .tap =>
      match s.lastPressAt with
      | some lastPress =>
          some { s with
            bpms := s.bpms.push (60000 / ((now - lastPress : ℤ) : ℚ))
            lastPressAt := some now }
      | none => some { s with lastPressAt := some now }
  | .up =>
      if s.inputs = 1 then some s
      else
        let inputIdx := (s.selected + s.inputs - 1) % s.inputs
        some { s with
          selected := inputIdx
          plays := inputIdx :: s.plays
          lastPressAt := none
          bpms := Bpms.new }
  | .down =>
      if s.inputs = 1 then some s
      else
        let inputIdx := (s.selected + 1) % s.inputs
        some { s with
          selected := inputIdx
          plays := inputIdx :: s.plays
          lastPressAt := none
          bpms := Bpms.new }
  | .manual => some { s with state := .manual 0 }

/-- The `State::Finished` arm of the event loop (src/main.rs lines
349-384), with `bpm` the payload of the current `Finished` state. -/
def stepFinished (s : Session) (bpm : ℕ) : ConfirmCommands → Session
  | .yes =>
      let inputIdx := (s.selected + 1) % s.inputs
      { s with
        writes := (s.selected, bpm) :: s.writes
        state := .playing
        selected := inputIdx
        plays := inputIdx :: s.plays
        lastPressAt := none
        bpms := Bpms.new }
  | .no => { s with state := .playing }

/-- The `State::Manual` arm of the event loop (src/main.rs lines
385-451), with `manualBpm` the payload of the current `Manual` state.
`Esc` and `'m'` return to playing; `Enter` writes the accumulated value
and advances; `Backspace` drops the last digit; any other character goes
through the digit accumulator. -/
def stepManual (s : Session) (manualBpm : ℕ) : ManualKey → Session
  | .esc => { s with state := .playing }
  | .enter =>
      let inputIdx := (s.selected + 1) % s.inputs
      { s with
        writes := (s.selected, manualBpm) :: s.writes
        state := .playing
        selected := inputIdx
        plays := inputIdx :: s.plays
        lastPressAt := none
        bpms := Bpms.new }
  | .backspace => { s with state := .manual (manualBpm / 10) }
  | .char c =>
      if c = 'm' then { s with state := .playing }
      else { s with state := .manual (manualDigitStep manualBpm c) }
  | .other => { s with state := .manual manualBpm }

/-! ## The tag-format variants of src/file.rs

`src/file.rs` delegates the on-disk containers to the external `id3` and
`metaflac` crates; those containers are modelled here as explicit values
(`Id3File`, `FlacFile`) threaded through `new` and `set_bpm`, faithful to
the crate behavior the code relies on: `id3::Tag::read_from_path` fails
with `ErrorKind::NoTag` on a file without an ID3 container and with other
errors on a corrupt container, while `metaflac::Tag::read_from_path`
succeeds on any readable FLAC (a missing vorbis-comment block just makes
every `get_vorbis` lookup return `None`). -/

/-- An ID3 frame's content as seen through `frame.content().text()`:
either a text frame or some other content kind for which `text()` is
`None`. -/
inductive FrameContent where
  | text (s : String)
  | otherContent
deriving DecidableEq

/-- The `content().text()` accessor of the `id3` crate. -/
def FrameContent.asText : FrameContent → Option String
  | .text s => some s
  | .otherContent => none

/-- An ID3 tag: an association list from frame id to frame content
(models `id3::Tag`). -/
structure Id3Tag where
  frames : List (String × FrameContent)
deriving DecidableEq

/-- Rust `id3::TagLike::get`: the first frame with the given id. -/
def Id3Tag.get (t : Id3Tag) (frameId : String) : Option FrameContent :=
  (t.frames.find? (fun p => p.1 == frameId)).map (·.2)

/-- Rust `id3::TagLike::set_text`: replace any frames under the given id with
a single text frame holding the given value. -/
def Id3Tag.set_text (t : Id3Tag) (frameId : String) (val : String) : Id3Tag :=
  ⟨(frameId, .text val) :: t.frames.filter (fun p => p.1 != frameId)⟩

/-- What `id3::Tag::read_from_path` can encounter for an mp3 path: no ID3
container (`ErrorKind::NoTag`), a corrupt container (any other error), or
a readable tag. -/
inductive Id3File where
  | noTag
  | corrupt
  | tagged (t : Id3Tag)
deriving DecidableEq

/-- The anyhow-wrapped tag read/write failure surfaced by src/file.rs. -/
inductive TagError where
  | read
deriving DecidableEq

/-- Models Rust's `str::parse::<u32>()` as used through `.parse().ok()`:
an optional leading `+`, then one or more ASCII digits, and the value
must fit in `u32`; any other string gives `none`. -/
def parseU32 (s : String) : Option ℕ :=
  let digits :=
    match s.data with
    | '+' :: rest => rest
    | cs => cs
  if digits ≠ [] ∧ digits.all Char.isDigit then
    let v := digits.foldl (fun acc c => acc * 10 + (c.toNat - 48)) 0
    if v < 2 ^ 32 then some v else none
  else none

/-- The `Mp3` struct of src/file.rs: the path and the cached BPM. -/
structure Mp3 where
  path : String
  bpm : Option ℕ
deriving DecidableEq

/-- Rust `Mp3::new` (src/file.rs lines 15-32): a missing container is treated
as "no tag" (so the whole lookup chain yields `none`), a corrupt one is a
hard error; otherwise the BPM is the TBPM frame's text parsed as `u32`,
with every failure along the chain collapsing to `none`. -/
def Mp3.new (disk : Id3File) (path : String) : Except TagError Mp3 :=
  match disk with
  | .corrupt => .error .read
  | .noTag => .ok ⟨path, none⟩
  | .tagged t =>
      .ok ⟨path, ((t.get "TBPM").bind FrameContent.asText).bind parseU32⟩

/-- Rust `Mp3::set_bpm` (src/file.rs lines 44-52): the cache is assigned the
new value first; then the container is re-read from disk — an error
there (including `NoTag`!) aborts with the cache already updated — the
TBPM frame is set to the decimal string of the BPM, and the container is
written back. -/
def Mp3.set_bpm (m : Mp3) (disk : Id3File) (bpm : ℕ) :
    Mp3 × Except TagError Id3File :=
  let updated := { m with bpm := some bpm }
  match disk with
  | .tagged t => (updated, .ok (.tagged (t.set_text "TBPM" (toString bpm))))
  | _ => (updated, .error .read)

/-- A FLAC vorbis-comment block: an association list from (case-sensitive)
key to the list of values under that key (models `metaflac::Tag`). -/
structure FlacTag where
  comments : List (String × List String)
deriving DecidableEq

/-- Rust `metaflac::Tag::get_vorbis`: the values under a key, `none` when the
key (or the whole comment block) is absent. -/
def FlacTag.get_vorbis (t : FlacTag) (key : String) : Option (List String) :=
  (t.comments.find? (fun p => p.1 == key)).map (·.2)

/-- Rust `metaflac::Tag::set_vorbis`: replace the values under a key. -/
def FlacTag.set_vorbis (t : FlacTag) (key : String) (vals : List String) :
    FlacTag :=
  ⟨(key, vals) :: t.comments.filter (fun p => p.1 != key)⟩

/-- What `metaflac::Tag::read_from_path` can encounter for a flac path:
a corrupt file, or a readable metadata set (possibly with no
vorbis-comment entries at all). -/
inductive FlacFile where
  | corrupt
  | tagged (t : FlacTag)
deriving DecidableEq

/-- The `Flac` struct of src/file.rs: the path and the cached BPM. -/
structure Flac where
  path : String
  bpm : Option ℕ
deriving DecidableEq

/-- Rust `Flac::new` (src/file.rs lines 61-69): any read error is propagated;
otherwise the BPM is the first value under the "BPM" vorbis key parsed as
`u32`, with every failure along the chain collapsing to `none`. -/
def Flac.new (disk : FlacFile) (path : String) : Except TagError Flac :=
  match disk with
  | .corrupt => .error .read
  | .tagged t =>
      .ok ⟨path, ((t.get_vorbis "BPM").bind List.head?).bind parseU32⟩

/-- Rust `Flac::set_bpm` (src/file.rs lines 81-89): the cache is assigned the
new value first; then the container is re-read — an error aborts with
the cache already updated — the "BPM" key is set to the one-element list
of the decimal string, and the container is saved. -/
def Flac.set_bpm (f : Flac) (disk : FlacFile) (bpm : ℕ) :
    Flac × Except TagError FlacFile :=
  let updated := { f with bpm := some bpm }
  match disk with
  | .tagged t => (updated, .ok (.tagged (t.set_vorbis "BPM" [toString bpm])))
  | .corrupt => (updated, .error .read)

example : parseU32 "128" = some 128 := by decide
example : parseU32 "not-a-number" = none := by decide
example : parseU32 "" = none := by decide
example : parseU32 "4294967296" = none := by decide

/-! ## Input resolution (src/main.rs lines 249-261, src/filter.rs lines 15-27) -/

/-- Models `Path::new(&input).extension().and_then(OsStr::to_str)` for
UTF-8 paths: the part of the last path component after its final `.`,
`none` when that component has no `.` or is a hidden file like
`".bashrc"` (trailing-separator normalization of `Path` is not
modelled). -/
def rustExtension (path : String) : Option String :=
  let fileName := (path.data.splitOn '/').getLastD []
  if fileName = [] ∨ fileName = ['.'] ∨ fileName = ['.', '.'] then none
  else
    let parts := fileName.splitOn '.'
    match parts with
    | [] => none
    | [_] => none
    | first :: rest =>
        if first = [] ∧ rest.length = 1 then none
        else some (parts.getLastD []).asString

/-- The error values `main` can produce while resolving inputs: the
`anyhow!` unsupported-file-type message, or a wrapped tag read error. -/
inductive AppError where
  | unsupportedFileType (msg : String)
  | tagRead (e : TagError)
deriving DecidableEq

/-- A resolved `Box<dyn file::Music>`: one of the two variants. -/
inductive MusicFile where
  | mp3 (m : Mp3)
  | flac (f : Flac)
deriving DecidableEq

/-- The per-input resolution of `main` in src/main.rs (lines 249-261):
dispatch on the extension, constructing the matching variant; any other
extension fails with `anyhow!("{}: Unsupported file type", input)`. -/
def resolveMain (id3Disk : String → Id3File) (flacDisk : String → FlacFile)
    (input : String) : Except AppError MusicFile :=
  if rustExtension input = some "mp3" then
    match Mp3.new (id3Disk input) input with
    | .ok m => .ok (.mp3 m)
    | .error e => .error (.tagRead e)
  else if rustExtension input = some "flac" then
    match Flac.new (flacDisk input) input with
    | .ok f => .ok (.flac f)
    | .error e => .error (.tagRead e)
  else .error (.unsupportedFileType (input ++ ": Unsupported file type"))

/-- The per-input resolution of `main` in src/filter.rs (lines 15-27):
identical dispatch, but the unsupported-file-type message is the fixed
string `anyhow!("Unsupported file type")` without the path. -/
def resolveFilter (id3Disk : String → Id3File) (flacDisk : String → FlacFile)
    (input : String) : Except AppError MusicFile :=
  if rustExtension input = some "mp3" then
    match Mp3.new (id3Disk input) input with
    | .ok m => .ok (.mp3 m)
    | .error e => .error (.tagRead e)
  else if rustExtension input = some "flac" then
    match Flac.new (flacDisk input) input with
    | .ok f => .ok (.flac f)
    | .error e => .error (.tagRead e)
  else .error (.unsupportedFileType "Unsupported file type")

example : rustExtension "song.mp3" = some "mp3" := by decide
example : rustExtension "dir/song.flac" = some "flac" := by decide
example : rustExtension "song.wav" = some "wav" := by decide
example : rustExtension "song" = none := by decide
example : rustExtension ".bashrc" = none := by decide
example : rustExtension "a.tar.gz" = some "gz" := by decide

/-! ## Claim theorems -/

/-- C4: for both variants, construction treats a missing tag container,
a missing BPM field, and a non-numeric (or non-text) BPM value as
`bpm = none` and succeeds; only a corrupt container is a hard read error
that fails construction.  (For flac, a readable file without any
vorbis-comment entry is the "no container" case: `metaflac` reads it
fine and every lookup yields `none`.) -/
theorem track_new_absent_bpm_is_none (path : String) :
    (Mp3.new .noTag path = .ok ⟨path, none⟩) ∧
    (∀ t : Id3Tag, t.get "TBPM" = none →
      Mp3.new (.tagged t) path = .ok ⟨path, none⟩) ∧
    (∀ t : Id3Tag, ∀ s : String, t.get "TBPM" = some (.text s) →
      parseU32 s = none → Mp3.new (.tagged t) path = .ok ⟨path, none⟩) ∧
    (∀ t : Id3Tag, t.get "TBPM" = some .otherContent →
      Mp3.new (.tagged t) path = .ok ⟨path, none⟩) ∧
    (Mp3.new .corrupt path = .error .read) ∧
    (∀ t : FlacTag, t.get_vorbis "BPM" = none →
      Flac.new (.tagged t) path = .ok ⟨path, none⟩) ∧
    (∀ t : FlacTag, ∀ vals : List String, ∀ s : String,
      t.get_vorbis "BPM" = some vals → vals.head? = some s →
      parseU32 s = none → Flac.new (.tagged t) path = .ok ⟨path, none⟩) ∧
    (Flac.new .corrupt path = .error .read) := by
  refine ⟨rfl, ?_, ?_, ?_, rfl, ?_, ?_, rfl⟩
  · intro t hget
    simp [Mp3.new, hget]
  · intro t s hget hparse
    simp [Mp3.new, hget, FrameContent.asText, hparse]
  · intro t hget
    simp [Mp3.new, hget, FrameContent.asText]
  · intro t hget
    simp [Flac.new, hget]
  · intro t vals s hget hhead hparse
    simp [Flac.new, hget, hhead, hparse]

/-- Witness for C4 at concrete containers: an empty mp3 tag, a
non-numeric TBPM frame, an empty flac comment block, and a non-numeric
BPM comment. -/
theorem track_new_absent_bpm_is_none_witness :
    Mp3.new (.tagged ⟨[]⟩) "a.mp3" = .ok ⟨"a.mp3", none⟩ ∧
    Mp3.new (.tagged ⟨[("TBPM", .text "fast")]⟩) "a.mp3" =
      .ok ⟨"a.mp3", none⟩ ∧
    Flac.new (.tagged ⟨[]⟩) "b.flac" = .ok ⟨"b.flac", none⟩ ∧
    Flac.new (.tagged ⟨[("BPM", ["fast"])]⟩) "b.flac" =
      .ok ⟨"b.flac", none⟩ :=
  ⟨(track_new_absent_bpm_is_none "a.mp3").2.1 ⟨[]⟩ (by decide),
   (track_new_absent_bpm_is_none "a.mp3").2.2.1 ⟨[("TBPM", .text "fast")]⟩
     "fast" (by decide) (by decide),
   (track_new_absent_bpm_is_none "b.flac").2.2.2.2.2.1 ⟨[]⟩ (by decide),
   (track_new_absent_bpm_is_none "b.flac").2.2.2.2.2.2.1
     ⟨[("BPM", ["fast"])]⟩ ["fast"] "fast" (by decide) rfl (by decide)⟩

/-- C2 counterexample: an mp3 file with no ID3 container at all is a
"file with no prior tag" (constructing yields `bpm = none`), yet
`set_bpm 128` on it does not succeed: `Mp3::set_bpm` re-reads the
container and propagates the `NoTag` error instead of creating a fresh
tag, so no value is persisted. -/
theorem mp3_no_container_roundtrip_fails :
    Mp3.new .noTag "a.mp3" = .ok ⟨"a.mp3", none⟩ ∧
    (Mp3.set_bpm ⟨"a.mp3", none⟩ .noTag 128).2 = .error .read :=
  ⟨rfl, rfl⟩

/-- C2 amended: the `set_bpm 128` round trip holds for mp3 when the file
has a readable ID3 container (with no TBPM frame), and for flac whenever
the metadata is readable (with no BPM comment); for an mp3 with no tag
container at all, construction still yields `bpm = none` but `set_bpm`
fails with the propagated `NoTag` read error. -/
theorem track_set_bpm_roundtrip (path : String) :
    (∀ t : Id3Tag, t.get "TBPM" = none →
      Mp3.new (.tagged t) path = .ok ⟨path, none⟩ ∧
      ∃ t' : Id3Tag,
        Mp3.set_bpm ⟨path, none⟩ (.tagged t) 128 =
          (⟨path, some 128⟩, .ok (.tagged t')) ∧
        Mp3.new (.tagged t') path = .ok ⟨path, some 128⟩) ∧
    (∀ t : FlacTag, t.get_vorbis "BPM" = none →
      Flac.new (.tagged t) path = .ok ⟨path, none⟩ ∧
      ∃ t' : FlacTag,
        Flac.set_bpm ⟨path, none⟩ (.tagged t) 128 =
          (⟨path, some 128⟩, .ok (.tagged t')) ∧
        Flac.new (.tagged t') path = .ok ⟨path, some 128⟩) := by
  constructor
  · intro t hget
    refine ⟨by simp [Mp3.new, hget], t.set_text "TBPM" "128", rfl, ?_⟩
    have hget' : (t.set_text "TBPM" "128").get "TBPM" =
        some (.text "128") := by
      simp [Id3Tag.set_text, Id3Tag.get, List.find?]
    simp [Mp3.new, hget', FrameContent.asText,
      show parseU32 "128" = some 128 from by decide]
  · intro t hget
    refine ⟨by simp [Flac.new, hget], t.set_vorbis "BPM" ["128"],
      rfl, ?_⟩
    have hget' : (t.set_vorbis "BPM" ["128"]).get_vorbis "BPM" =
        some ["128"] := by
      simp [FlacTag.set_vorbis, FlacTag.get_vorbis, List.find?]
    simp [Flac.new, hget',
      show parseU32 "128" = some 128 from by decide]

/-- Witness for C2 (amended) at concrete empty containers. -/
theorem track_set_bpm_roundtrip_witness :
    (∃ t' : Id3Tag,
      Mp3.set_bpm ⟨"a.mp3", none⟩ (.tagged ⟨[]⟩) 128 =
        (⟨"a.mp3", some 128⟩, .ok (.tagged t')) ∧
      Mp3.new (.tagged t') "a.mp3" = .ok ⟨"a.mp3", some 128⟩) ∧
    (∃ t' : FlacTag,
      Flac.set_bpm ⟨"b.flac", none⟩ (.tagged ⟨[]⟩) 128 =
        (⟨"b.flac", some 128⟩, .ok (.tagged t')) ∧
      Flac.new (.tagged t') "b.flac" = .ok ⟨"b.flac", some 128⟩) :=
  ⟨((track_set_bpm_roundtrip "a.mp3").1 ⟨[]⟩ (by decide)).2,
   ((track_set_bpm_roundtrip "b.flac").2 ⟨[]⟩ (by decide)).2⟩

/-- C3 counterexample: a failing `set_bpm` call does change the cached
BPM.  The track was constructed with `bpm = none`; `set_bpm 128` against
a containerless mp3 fails, yet afterwards the cache reads `some 128` —
dirty relative to the untouched disk. -/
theorem set_bpm_failure_leaves_dirty_cache :
    Mp3.new .noTag "a.mp3" = .ok ⟨"a.mp3", none⟩ ∧
    (Mp3.set_bpm ⟨"a.mp3", none⟩ .noTag 128).2 = .error .read ∧
    (Mp3.set_bpm ⟨"a.mp3", none⟩ .noTag 128).1.bpm = some 128 ∧
    some 128 ≠ (none : Option ℕ) :=
  ⟨rfl, rfl, rfl, by decide⟩

/-- C3 amended: `set_bpm` assigns the cache the attempted value before
doing any I/O, so after a *successful* call the cache equals the value
just written to disk, but after a *failed* call the cache also holds the
attempted value — it is not rolled back and may be dirty relative to
disk. -/
theorem set_bpm_cache_semantics (m : Mp3) (f : Flac) (dm : Id3File)
    (df : FlacFile) (bpm : ℕ) :
    ((Mp3.set_bpm m dm bpm).1 = { m with bpm := some bpm }) ∧
    (∀ t : Id3Tag, dm = .tagged t →
      (Mp3.set_bpm m dm bpm).2 =
        .ok (.tagged (t.set_text "TBPM" (toString bpm)))) ∧
    (dm = .noTag ∨ dm = .corrupt →
      (Mp3.set_bpm m dm bpm).2 = .error .read) ∧
    ((Flac.set_bpm f df bpm).1 = { f with bpm := some bpm }) ∧
    (∀ t : FlacTag, df = .tagged t →
      (Flac.set_bpm f df bpm).2 =
        .ok (.tagged (t.set_vorbis "BPM" [toString bpm]))) ∧
    (df = .corrupt → (Flac.set_bpm f df bpm).2 = .error .read) := by
  refine ⟨?_, ?_, ?_, ?_, ?_, ?_⟩
  · cases dm <;> rfl
  · rintro t rfl
    rfl
  · rintro (rfl | rfl) <;> rfl
  · cases df <;> rfl
  · rintro t rfl
    rfl
  · rintro rfl
    rfl

/-- Witness for C3 (amended) at concrete inputs: a successful write
updates cache and disk together; a failed write still updates the
cache. -/
theorem set_bpm_cache_semantics_witness :
    (Mp3.set_bpm ⟨"a.mp3", none⟩ (.tagged ⟨[]⟩) 90).1 =
      { path := "a.mp3", bpm := some 90 } ∧
    (Mp3.set_bpm ⟨"a.mp3", none⟩ (.tagged ⟨[]⟩) 90).2 =
      .ok (.tagged (Id3Tag.set_text ⟨[]⟩ "TBPM" (toString 90))) ∧
    (Mp3.set_bpm ⟨"a.mp3", none⟩ .corrupt 90).2 = .error .read ∧
    (Flac.set_bpm ⟨"b.flac", none⟩ .corrupt 90).2 = .error .read :=
  ⟨(set_bpm_cache_semantics ⟨"a.mp3", none⟩ ⟨"b.flac", none⟩
      (.tagged ⟨[]⟩) .corrupt 90).1,
   (set_bpm_cache_semantics ⟨"a.mp3", none⟩ ⟨"b.flac", none⟩
      (.tagged ⟨[]⟩) .corrupt 90).2.1 ⟨[]⟩ rfl,
   (set_bpm_cache_semantics ⟨"a.mp3", none⟩ ⟨"b.flac", none⟩
      .corrupt .corrupt 90).2.2.1 (Or.inr rfl),
   (set_bpm_cache_semantics ⟨"a.mp3", none⟩ ⟨"b.flac", none⟩
      .corrupt .corrupt 90).2.2.2.2.2 rfl⟩

/-- C5: the overflow guard of the manual-entry digit handler is
insufficient.  The value `429496729 = u32::MAX / 10` is reachable by
typing digits from `0`, passes the guard `manual_bpm > u32::MAX / 10`,
and then `429496729 * 10 + 9 = 4294967299` exceeds `u32::MAX`, so the
`u32` computation wraps to `3` (release builds; debug builds panic on
the overflow) instead of accumulating the entered digits. -/
theorem manual_entry_overflow_guard_bug :
    List.foldl manualDigitStep 0 ['4', '2', '9', '4', '9', '6', '7', '2', '9'] =
      429496729 ∧
    429496729 ≤ (2 ^ 32 - 1) / 10 ∧
    manualDigitStep 429496729 '9' = 3 ∧
    429496729 * 10 + 9 = 4294967299 ∧
    (3 : ℕ) ≠ 4294967299 ∧
    ∀ s : Session, stepManual s 429496729 (.char '9') =
      { s with state := .manual 3 } := by
  refine ⟨by decide, by decide, by decide, by decide, by decide, ?_⟩
  intro s
  rfl

/-- C6: with confirmation required and a populated estimator averaging
`90`, `Confirm` in browsing only moves to the reviewing state (no tag
write, no playback change, no index change); `Yes` from there performs
exactly one tag write of `90` to the current track, returns to browsing
on the next index (wrapped), restarts playback there, and resets the
estimator and the last-tap timestamp. -/
theorem confirm_review_then_yes_writes_once (s : Session) (now : ℤ)
    (havg : s.bpms.avg = some 90) :
    stepPlaying true now s .confirm = some { s with state := .finished 90 } ∧
    stepFinished { s with state := .finished 90 } 90 .yes =
      { s with
        state := .playing
        writes := (s.selected, 90) :: s.writes
        selected := (s.selected + 1) % s.inputs
        plays := ((s.selected + 1) % s.inputs) :: s.plays
        lastPressAt := none
        bpms := Bpms.new } := by
  constructor
  · simp [stepPlaying, havg]
  · rfl

/-- Witness for C6: a concrete two-track session whose estimator holds
the single sample `90`. -/
theorem confirm_review_then_yes_writes_once_witness :
    (Bpms.new.push 90).avg = some 90 ∧
    stepPlaying true 0 ⟨.playing, 0, 2, none, Bpms.new.push 90, [], []⟩
        .confirm =
      some ⟨.finished 90, 0, 2, none, Bpms.new.push 90, [], []⟩ ∧
    stepFinished ⟨.finished 90, 0, 2, none, Bpms.new.push 90, [], []⟩ 90
        .yes =
      ⟨.playing, 1, 2, none, Bpms.new, [1], [(0, 90)]⟩ := by
  have havg : (Bpms.new.push 90).avg = some 90 := by
    norm_num [Bpms.new, Bpms.push, Bpms.avg, f64ToU32, List.replicate,
      Int.toNat]
  have h := confirm_review_then_yes_writes_once
    ⟨.playing, 0, 2, none, Bpms.new.push 90, [], []⟩ 0 havg
  exact ⟨havg, h.1, h.2⟩

/-- C7: on a single-track playlist, `Up` and `Down` in browsing are
complete no-ops: the whole session state is returned unchanged — no
index change, no playback restart, no estimator or timestamp reset. -/
theorem navigate_singleton_noop (confirmFlag : Bool) (now : ℤ)
    (s : Session) (h : s.inputs = 1) :
    stepPlaying confirmFlag now s .up = some s ∧
    stepPlaying confirmFlag now s .down = some s := by
  constructor <;> simp [stepPlaying, h]

/-- Witness for C7: a concrete one-track session. -/
theorem navigate_singleton_noop_witness :
    stepPlaying false 0 ⟨.playing, 0, 1, none, Bpms.new, [], []⟩ .up =
      some ⟨.playing, 0, 1, none, Bpms.new, [], []⟩ ∧
    stepPlaying false 0 ⟨.playing, 0, 1, none, Bpms.new, [], []⟩ .down =
      some ⟨.playing, 0, 1, none, Bpms.new, [], []⟩ :=
  navigate_singleton_noop false 0 ⟨.playing, 0, 1, none, Bpms.new, [], []⟩
    rfl

/-- Advancing with `(i + 1) % n` then `(j + n - 1) % n` is the identity on valid
indices. -/
lemma next_then_prev (n i : ℕ) (h1 : 1 < n) (h2 : i < n) :
    ((i + 1) % n + n - 1) % n = i := by
  rcases Nat.lt_or_ge (i + 1) n with h | h
  · rw [Nat.mod_eq_of_lt h]
    have e : i + 1 + n - 1 = i + n := by omega
    rw [e, Nat.add_mod_right]
    exact Nat.mod_eq_of_lt h2
  · have hin : i + 1 = n := by omega
    rw [hin, Nat.mod_self]
    have e : 0 + n - 1 = n - 1 := by omega
    rw [e, Nat.mod_eq_of_lt (by omega)]
    omega

/-- Retreating with `(i + n - 1) % n` then `(j + 1) % n` is the identity on valid
indices. -/
lemma prev_then_next (n i : ℕ) (h1 : 1 < n) (h2 : i < n) :
    ((i + n - 1) % n + 1) % n = i := by
  rcases Nat.eq_zero_or_pos i with h | h
  · subst h
    have e : 0 + n - 1 = n - 1 := by omega
    have e1 : (n - 1) % n = n - 1 := Nat.mod_eq_of_lt (by omega)
    have e2 : n - 1 + 1 = n := by omega
    rw [e, e1, e2, Nat.mod_self]
  · have e : i + n - 1 = i - 1 + n := by omega
    have e1 : (i - 1 + n) % n = (i - 1) % n := Nat.add_mod_right _ _
    have e2 : (i - 1) % n = i - 1 := Nat.mod_eq_of_lt (by omega)
    have e3 : i - 1 + 1 = i := by omega
    rw [e, e1, e2, e3]
    exact Nat.mod_eq_of_lt h2

/-- C9: on a playlist with more than one track, `Down` then `Up` (and
`Up` then `Down`) in browsing bring the current index back to where it
started, because `(i+1) % n` followed by `(j+n-1) % n` is the identity
on indices `i < n`. -/
theorem navigate_next_prev_inverse (confirmFlag : Bool) (now : ℤ)
    (s : Session) (h1 : 1 < s.inputs) (h2 : s.selected < s.inputs) :
    ((stepPlaying confirmFlag now s .down).bind
        (fun s1 => stepPlaying confirmFlag now s1 .up)).map
      Session.selected = some s.selected ∧
    ((stepPlaying confirmFlag now s .up).bind
        (fun s1 => stepPlaying confirmFlag now s1 .down)).map
      Session.selected = some s.selected := by
  have hne : ¬s.inputs = 1 := by omega
  constructor
  · simp only [stepPlaying, if_neg hne, Option.some_bind, Option.map_some]
    exact congrArg some (next_then_prev s.inputs s.selected h1 h2)
  · simp only [stepPlaying, if_neg hne, Option.some_bind, Option.map_some]
    exact congrArg some (prev_then_next s.inputs s.selected h1 h2)

/-- Witness for C9: a three-track session on index 1. -/
theorem navigate_next_prev_inverse_witness :
    ((stepPlaying false 0 ⟨.playing, 1, 3, none, Bpms.new, [], []⟩ .down).bind
        (fun s1 => stepPlaying false 0 s1 .up)).map
      Session.selected = some 1 ∧
    ((stepPlaying false 0 ⟨.playing, 1, 3, none, Bpms.new, [], []⟩ .up).bind
        (fun s1 => stepPlaying false 0 s1 .down)).map
      Session.selected = some 1 :=
  navigate_next_prev_inverse false 0 ⟨.playing, 1, 3, none, Bpms.new, [], []⟩
    (by decide) (by decide)

/-- C10: entering manual mode starts at accumulated value `0`, and
`Enter` there is not guarded: it writes BPM `0` to the current track,
advances the index (wrapped), restarts playback on the new track, and
resets the estimator and the last-tap timestamp. -/
theorem manual_zero_confirm_unguarded (confirmFlag : Bool) (now : ℤ)
    (s : Session) :
    stepPlaying confirmFlag now s .manual = some { s with state := .manual 0 } ∧
    stepManual s 0 .enter =
      { s with
        state := .playing
        writes := (s.selected, 0) :: s.writes
        selected := (s.selected + 1) % s.inputs
        plays := ((s.selected + 1) % s.inputs) :: s.plays
        lastPressAt := none
        bpms := Bpms.new } :=
  ⟨rfl, rfl⟩

/-- C8 counterexample: in the filtering pass (src/filter.rs) the
unsupported-file-type error is the fixed message
`"Unsupported file type"`, which does not contain the offending path
`"a.wav"` — the claim that the error carries the path in the filtering
pass is false. -/
theorem filter_unsupported_error_lacks_path :
    resolveFilter (fun _ => .noTag) (fun _ => .corrupt) "a.wav" =
      .error (.unsupportedFileType "Unsupported file type") ∧
    ¬ "a.wav".data <:+: "Unsupported file type".data := by
  constructor
  · rfl
  · intro hinf
    have hw : 'w' ∈ "Unsupported file type".data := hinf.subset (by decide)
    revert hw
    decide

/-- C8 amended: any input whose extension is neither `"mp3"` nor
`"flac"` fails resolution with an unsupported-file-type error in both
passes; at session startup (src/main.rs) the message is
`"{input}: Unsupported file type"`, which carries the offending path as
a prefix, while the filtering pass (src/filter.rs) uses the fixed
message `"Unsupported file type"` without the path. -/
theorem unsupported_extension_fails (id3Disk : String → Id3File)
    (flacDisk : String → FlacFile) (input : String)
    (hmp3 : rustExtension input ≠ some "mp3")
    (hflac : rustExtension input ≠ some "flac") :
    resolveMain id3Disk flacDisk input =
      .error (.unsupportedFileType (input ++ ": Unsupported file type")) ∧
    input.data <+: (input ++ ": Unsupported file type").data ∧
    resolveFilter id3Disk flacDisk input =
      .error (.unsupportedFileType "Unsupported file type") := by
  refine ⟨?_, ?_, ?_⟩
  · simp [resolveMain, hmp3, hflac]
  · rw [String.data_append]
    exact List.prefix_append _ _
  · simp [resolveFilter, hmp3, hflac]

/-- Witness for C8 (amended) at the concrete path `"a.wav"`. -/
theorem unsupported_extension_fails_witness :
    resolveMain (fun _ => .noTag) (fun _ => .corrupt) "a.wav" =
      .error (.unsupportedFileType "a.wav: Unsupported file type") ∧
    resolveFilter (fun _ => .noTag) (fun _ => .corrupt) "a.wav" =
      .error (.unsupportedFileType "Unsupported file type") := by
  have h := unsupported_extension_fails (fun _ => .noTag) (fun _ => .corrupt)
    "a.wav" (by decide) (by decide)
  exact ⟨h.1, h.2.2⟩

end Crabtap
